import Mathlib

/-!
Verification of the ml-metadata QueryConfigExecutor core against its
specification.  The repository sources available are
`ml_metadata/metadata_store/query_config_executor.h` (declarations and
inline bodies) and `ml_metadata/metadata_store/query_executor_test.cc`.
The bodies of the query operations live in a translation unit that is not
part of the available sources, so the relational semantics of those
operations is modelled from the specification (each such definition says
so in its doc comment).  `GetLibraryVersion` (inline in the header) and
`GetIdColumnIndex` (defined in the test file) are embedded directly from
the source.
-/

namespace MlMetadata

/-- The NULL sentinel string used in RecordSet cells, per the spec:
NULL in the RecordSet is conveyed as the exact sentinel string
__MLMD_NULL__. -/
def kMetadataSourceNull : String := "__MLMD_NULL__"

/-- The name of the id column, as compared against literally in the test
helper GetIdColumnIndex. -/
def idColumnName : String := "id"

/-- TypeKind enum from the metadata store proto (stable wire values per the
spec: EXECUTION = 0, ARTIFACT = 1, CONTEXT = 2). -/
inductive TypeKind where
  | EXECUTION_TYPE
  | ARTIFACT_TYPE
  | CONTEXT_TYPE
  deriving DecidableEq

/-- One row of a RecordSet: a list of string cells. -/
structure Record where
  values : List String
  deriving DecidableEq

/-- The uniform tabular result representation: ordered column names plus
rows of strings. -/
structure RecordSet where
  column_names : List String
  records : List Record
  deriving DecidableEq

/-- Status kinds surfaced by the executor API (absl::Status codes that the
modelled operations can produce). -/
inductive Status where
  | ok
  | failedPrecondition
  | dataLoss
  | internalError
  deriving DecidableEq

/-- A typed property value: exactly one of int, double, string is
populated.  The double payload is kept as its round-trippable decimal
rendering, since every RecordSet cell is a string anyway. -/
inductive Value where
  | int_value (v : Int)
  | double_value (v : String)
  | string_value (v : String)
  deriving DecidableEq

/-- The integer discriminator column emitted by BindDataType, using the
PropertyType wire values INT = 1, DOUBLE = 2, STRING = 3. -/
def BindDataType : Value → Int
  | Value.int_value _ => 1
  | Value.double_value _ => 2
  | Value.string_value _ => 3

/-- A row of the Type table: id, name, optional version and description,
the kind discriminator, and (for execution types) the serialised
input and output structural types. -/
structure TypeRow where
  id : Int
  name : String
  version : Option String
  description : Option String
  type_kind : TypeKind
  input_type : Option String
  output_type : Option String
  deriving DecidableEq

/-- A row of the ParentType table: a pair of type ids with no payload and
no referential enforcement. -/
structure ParentTypeRow where
  type_id : Int
  parent_type_id : Int
  deriving DecidableEq

/-- A row of the Context table. -/
structure ContextRow where
  id : Int
  type_id : Int
  name : String
  create_time_since_epoch : Int
  last_update_time_since_epoch : Int
  deriving DecidableEq

/-- A row of the ContextProperty table: owner id, property name, the
custom flag, the type discriminator and the three nullable value
columns of which exactly one is populated. -/
structure ContextPropertyRow where
  context_id : Int
  name : String
  is_custom_property : Bool
  data_type : Int
  int_value : Option Int
  double_value : Option String
  string_value : Option String
  deriving DecidableEq

/-- A row of the Attribution table: a context to artifact link. -/
structure AttributionRow where
  id : Int
  context_id : Int
  artifact_id : Int
  deriving DecidableEq

/-- A row of the Association table: a context to execution link. -/
structure AssociationRow where
  id : Int
  context_id : Int
  execution_id : Int
  deriving DecidableEq

/-- The relational state of the metadata store restricted to the tables
the verified operations touch, plus the auto-increment counter that
stands for the last-insert-id channel of the MetadataSource. -/
structure Store where
  types : List TypeRow
  parentTypes : List ParentTypeRow
  contexts : List ContextRow
  contextProperties : List ContextPropertyRow
  attributions : List AttributionRow
  associations : List AssociationRow
  nextId : Int
  deriving DecidableEq

/-- Render a nullable string column into a RecordSet cell: NULL becomes
the sentinel string. -/
def nullableCell : Option String → String
  | none => kMetadataSourceNull
  | some s => s

/-- The fixed column list of SelectTypesByID result sets, as pinned down
by the expected record sets in query_executor_test.cc for all three
type kinds. -/
def typeColumnNames : List String := ["id", "name", "version", "description"]

/-- Render a Type row into a SelectTypesByID record. -/
def typeRowRecord (t : TypeRow) : Record :=
  Record.mk [toString t.id, t.name, nullableCell t.version, nullableCell t.description]

/-- Modelled from the spec: the body of
QueryConfigExecutor::SelectTypesByID is in a translation unit not among
the sources; per the spec it returns the rows whose id is in the bound
id list and whose type_kind column equals the requested kind, with the
fixed columns id, name, version, description. -/
def SelectTypesByID (s : Store) (type_ids : List Int) (type_kind : TypeKind) : RecordSet :=
  RecordSet.mk typeColumnNames
    ((s.types.filter (fun t => decide (t.id ∈ type_ids ∧ t.type_kind = type_kind))).map
      typeRowRecord)

/-- Modelled from the spec: InsertArtifactType appends a Type row of kind
ARTIFACT and returns the server-assigned id via the last-insert-id
channel. -/
def InsertArtifactType (s : Store) (name : String)
    (version description : Option String) : Int × Store :=
  (s.nextId,
   { s with
       types := s.types ++
         [TypeRow.mk s.nextId name version description TypeKind.ARTIFACT_TYPE none none],
       nextId := s.nextId + 1 })

/-- Modelled from the spec: InsertExecutionType appends a Type row of
kind EXECUTION, also storing the serialised input and output structural
types, and returns the server-assigned id. -/
def InsertExecutionType (s : Store) (name : String)
    (version description : Option String)
    (input_type output_type : Option String) : Int × Store :=
  (s.nextId,
   { s with
       types := s.types ++
         [TypeRow.mk s.nextId name version description TypeKind.EXECUTION_TYPE
           input_type output_type],
       nextId := s.nextId + 1 })

/-- Modelled from the spec: InsertContextType appends a Type row of kind
CONTEXT and returns the server-assigned id. -/
def InsertContextType (s : Store) (name : String)
    (version description : Option String) : Int × Store :=
  (s.nextId,
   { s with
       types := s.types ++
         [TypeRow.mk s.nextId name version description TypeKind.CONTEXT_TYPE none none],
       nextId := s.nextId + 1 })

/-- Modelled from the spec: InsertParentType stores the (type_id,
parent_type_id) link with no referential check on either id (soft
link). -/
def InsertParentType (s : Store) (type_id parent_type_id : Int) : Store :=
  { s with parentTypes := s.parentTypes ++ [ParentTypeRow.mk type_id parent_type_id] }

/-- Column list of SelectParentTypesByTypeID result sets: the test reads
values(0) as the child type id and values(1) as the parent type id. -/
def parentTypeColumnNames : List String := ["type_id", "parent_type_id"]

/-- Render a ParentType row into a record. -/
def parentTypeRowRecord (r : ParentTypeRow) : Record :=
  Record.mk [toString r.type_id, toString r.parent_type_id]

/-- Modelled from the spec: SelectParentTypesByTypeID returns the stored
links whose child type id is in the bound list; an empty id list
short-circuits to success without executing SQL, leaving the output
RecordSet untouched.  The third component counts the Execute calls
issued to the underlying MetadataSource driver. -/
def SelectParentTypesByTypeID (s : Store) (type_ids : List Int) :
    Status × RecordSet × Nat :=
  if type_ids.isEmpty then
    (Status.ok, RecordSet.mk [] [], 0)
  else
    (Status.ok,
     RecordSet.mk parentTypeColumnNames
       ((s.parentTypes.filter (fun r => decide (r.type_id ∈ type_ids))).map
         parentTypeRowRecord),
     1)

/-- Modelled from the spec: InsertContext appends a Context row and
returns the server-assigned id. -/
def InsertContext (s : Store) (type_id : Int) (name : String)
    (create_time update_time : Int) : Int × Store :=
  (s.nextId,
   { s with
       contexts := s.contexts ++ [ContextRow.mk s.nextId type_id name create_time update_time],
       nextId := s.nextId + 1 })

/-- Modelled from the spec: InsertContextProperty writes exactly one
typed value column together with its discriminator; the remaining two
value columns stay NULL. -/
def InsertContextProperty (s : Store) (context_id : Int) (name : String)
    (custom_property : Bool) (value : Value) : Store :=
  { s with
      contextProperties := s.contextProperties ++
        [match value with
         | Value.int_value v =>
             ContextPropertyRow.mk context_id name custom_property (BindDataType value)
               (some v) none none
         | Value.double_value v =>
             ContextPropertyRow.mk context_id name custom_property (BindDataType value)
               none (some v) none
         | Value.string_value v =>
             ContextPropertyRow.mk context_id name custom_property (BindDataType value)
               none none (some v)] }

/-- Modelled from the spec: InsertAttributionDirect appends an
Attribution row and returns its server-assigned id. -/
def InsertAttributionDirect (s : Store) (context_id artifact_id : Int) : Int × Store :=
  (s.nextId,
   { s with
       attributions := s.attributions ++ [AttributionRow.mk s.nextId context_id artifact_id],
       nextId := s.nextId + 1 })

/-- Modelled from the spec: InsertAssociation appends an Association row
and returns its server-assigned id. -/
def InsertAssociation (s : Store) (context_id execution_id : Int) : Int × Store :=
  (s.nextId,
   { s with
       associations := s.associations ++ [AssociationRow.mk s.nextId context_id execution_id],
       nextId := s.nextId + 1 })

/-- Column list of SelectContextsByID result sets (logical schema of the
Context table). -/
def contextColumnNames : List String :=
  ["id", "type_id", "name", "create_time_since_epoch", "last_update_time_since_epoch"]

/-- Render a Context row into a record. -/
def contextRowRecord (c : ContextRow) : Record :=
  Record.mk [toString c.id, toString c.type_id, c.name,
    toString c.create_time_since_epoch, toString c.last_update_time_since_epoch]

/-- Modelled from the spec: SelectContextsByID returns the Context rows
whose id is in the bound list. -/
def SelectContextsByID (s : Store) (context_ids : List Int) : RecordSet :=
  RecordSet.mk contextColumnNames
    ((s.contexts.filter (fun c => decide (c.id ∈ context_ids))).map contextRowRecord)

/-- Render a nullable int column into a RecordSet cell. -/
def nullableIntCell : Option Int → String
  | none => kMetadataSourceNull
  | some v => toString v

/-- Render a ContextProperty row into a record. -/
def contextPropertyRowRecord (p : ContextPropertyRow) : Record :=
  Record.mk [toString p.context_id, p.name, if p.is_custom_property then "1" else "0",
    toString p.data_type, nullableIntCell p.int_value, nullableCell p.double_value,
    nullableCell p.string_value]

/-- Column list of SelectContextPropertyByContextID result sets (logical
schema of the ContextProperty table). -/
def contextPropertyColumnNames : List String :=
  ["context_id", "name", "is_custom_property", "data_type", "int_value", "double_value",
   "string_value"]

/-- Modelled from the spec: SelectContextPropertyByContextID returns the
ContextProperty rows whose owning context id is in the bound list. -/
def SelectContextPropertyByContextID (s : Store) (context_ids : List Int) : RecordSet :=
  RecordSet.mk contextPropertyColumnNames
    ((s.contextProperties.filter (fun p => decide (p.context_id ∈ context_ids))).map
      contextPropertyRowRecord)

/-- Render an Attribution row into a record. -/
def attributionRowRecord (a : AttributionRow) : Record :=
  Record.mk [toString a.id, toString a.context_id, toString a.artifact_id]

/-- Modelled from the spec: SelectAttributionByContextID returns the
Attribution rows whose context id equals the bound id. -/
def SelectAttributionByContextID (s : Store) (context_id : Int) : RecordSet :=
  RecordSet.mk ["id", "context_id", "artifact_id"]
    ((s.attributions.filter (fun a => decide (a.context_id = context_id))).map
      attributionRowRecord)

/-- Render an Association row into a record. -/
def associationRowRecord (a : AssociationRow) : Record :=
  Record.mk [toString a.id, toString a.context_id, toString a.execution_id]

/-- Modelled from the spec: SelectAssociationByContextIDs returns the
Association rows whose context id is in the bound list. -/
def SelectAssociationByContextIDs (s : Store) (context_ids : List Int) : RecordSet :=
  RecordSet.mk ["id", "context_id", "execution_id"]
    ((s.associations.filter (fun a => decide (a.context_id ∈ context_ids))).map
      associationRowRecord)

/-- Modelled from the spec: DeleteContextsById deletes the Context rows
with the given ids and their ContextProperty rows, deliberately leaving
Attribution and Association rows untouched; an empty id list is a no-op
and deleting absent ids is not an error. -/
def DeleteContextsById (s : Store) (context_ids : List Int) : Status × Store :=
  if context_ids.isEmpty then
    (Status.ok, s)
  else
    (Status.ok,
     { s with
         contexts := s.contexts.filter (fun c => decide (c.id ∉ context_ids)),
         contextProperties :=
           s.contextProperties.filter (fun p => decide (p.context_id ∉ context_ids)) })

/-- The MetadataSourceQueryConfig proto restricted to the field the
verified operations read: the integer schema version the library was
built against. -/
structure MetadataSourceQueryConfig where
  schema_version : Int
  deriving DecidableEq

/-- Presence of the characteristic tables of the 0.13.2 legacy schema:
none of them, some of them, or all of them. -/
inductive LegacyState where
  | absent
  | incomplete
  | complete
  deriving DecidableEq

/-- The schema-level state of a database as seen by the Init paths: the
optional MLMDEnv schema_version row, the legacy-table probe result, and
whether the current schema tables exist (their check queries would
succeed). -/
structure Database where
  schemaVersion : Option Int
  legacy : LegacyState
  tablesCreated : Bool
  deriving DecidableEq

/-- Modelled from the spec: GetSchemaVersion reads the schema_version
value stored in the MLMDEnv table, its absence being meaningful. -/
def GetSchemaVersion (db : Database) : Option Int :=
  db.schemaVersion

/-- GetLibraryVersion, embedded from the inline body in
query_config_executor.h: it CHECKs that the configured schema_version is
strictly positive and returns it; the none result models the fatal CHECK
failure. -/
def GetLibraryVersion (query_config : MetadataSourceQueryConfig) : Option Int :=
  if query_config.schema_version > 0 then some query_config.schema_version else none

/-- Modelled from the spec: UpgradeMetadataSourceIfOutOfDate compares the
resolved database version db_v against the library version: if db_v is
newer it refuses with FailedPrecondition and changes nothing (never a
downgrade on this path); if equal it is a no-op; if older it migrates
step by step when migration is enabled and otherwise returns
FailedPrecondition. -/
def UpgradeMetadataSourceIfOutOfDate (query_config : MetadataSourceQueryConfig)
    (enable_migration : Bool) (db : Database) (db_v : Int) : Status × Database :=
  if db_v > query_config.schema_version then
    (Status.failedPrecondition, db)
  else if db_v = query_config.schema_version then
    (Status.ok, db)
  else if enable_migration then
    (Status.ok, { db with schemaVersion := some query_config.schema_version,
                          tablesCreated := true })
  else
    (Status.failedPrecondition, db)

/-- Modelled from the spec (section 4.3, algorithm InitMetadataSource,
realised in the sources by InitMetadataSourceIfNotExists): probe MLMDEnv
for schema_version; when absent, fall back to the legacy 0.13.2 probe
(all tables means version 0, only some means DataLoss, none means an
empty database to be created at the library version); when a version is
resolved, a matching version verifies the tables and anything else goes
through UpgradeMetadataSourceIfOutOfDate. -/
def InitMetadataSource (query_config : MetadataSourceQueryConfig)
    (enable_migration : Bool) (db : Database) : Status × Database :=
  match db.schemaVersion with
  | some db_v =>
      if db_v = query_config.schema_version then
        if db.tablesCreated then (Status.ok, db) else (Status.internalError, db)
      else
        UpgradeMetadataSourceIfOutOfDate query_config enable_migration db db_v
  | none =>
      match db.legacy with
      | LegacyState.complete =>
          UpgradeMetadataSourceIfOutOfDate query_config enable_migration db 0
      | LegacyState.incomplete => (Status.dataLoss, db)
      | LegacyState.absent =>
          (Status.ok, { db with schemaVersion := some query_config.schema_version,
                                tablesCreated := true })

/-- GetIdColumnIndex loop, embedded from query_executor_test.cc: scan the
column names from the given position and return the position of the
first column named id, or -1 when the scan exhausts the list. -/
def GetIdColumnIndexFrom : Nat → List String → Int
  | _, [] => -1
  | i, c :: rest => if c = idColumnName then (i : Int) else GetIdColumnIndexFrom (i + 1) rest

/-- GetIdColumnIndex, embedded from query_executor_test.cc: it starts
from -1 and scans record_set.column_names, stopping at the first column
equal to id. -/
def GetIdColumnIndex (record_set : RecordSet) : Int :=
  GetIdColumnIndexFrom 0 record_set.column_names

/-! Concrete stores used by the witness theorems. -/

/-- A store with no rows and first free id 1. -/
def emptyStore : Store :=
  Store.mk [] [] [] [] [] [] 1

/-- A store holding one context (id 1) with one property, one attribution
and one association referencing it, mirroring the setup of the
DeleteContextsById test. -/
def witnessStore : Store :=
  Store.mk [] []
    [ContextRow.mk 1 5 ("delete_contexts_by_id_test_1") 0 0]
    [ContextPropertyRow.mk 1 ("property_1") false 1 (some 3) none none]
    [AttributionRow.mk 2 1 9]
    [AssociationRow.mk 3 1 8]
    7

/-- Claim C1: for every list of type ids and every kind, SelectTypesByID
returns exactly the stored Type rows whose id is in the list and whose
stored type_kind equals the requested kind; ids whose stored kind
differs contribute no row and cause no error (the operation is total on
every mixed list). -/
theorem SelectTypesByID_filters_by_kind (s : Store) (L : List Int) (K : TypeKind)
    (r : Record) :
    r ∈ (SelectTypesByID s L K).records ↔
      ∃ t ∈ s.types, t.id ∈ L ∧ t.type_kind = K ∧ r = typeRowRecord t := by
  simp only [SelectTypesByID, List.mem_map, List.mem_filter, decide_eq_true_eq]
  constructor
  · rintro ⟨t, ⟨ht, hid, hk⟩, rfl⟩
    exact ⟨t, ht, hid, hk, rfl⟩
  · rintro ⟨t, ht, hid, hk, rfl⟩
    exact ⟨t, ⟨ht, hid, hk⟩, rfl⟩

/-- Claim C3: every link inserted by InsertParentType is returned by
SelectParentTypesByTypeID whenever its child id is among the queried
ids, regardless of whether the parent id names any stored Type. -/
theorem InsertParentType_soft_link (s : Store) (t p : Int) (ids : List Int)
    (h : t ∈ ids) :
    parentTypeRowRecord (ParentTypeRow.mk t p) ∈
      (SelectParentTypesByTypeID (InsertParentType s t p) ids).2.1.records := by
  have hne : ids.isEmpty = false := by
    cases ids with
    | nil => cases h
    | cons a l => rfl
  simp only [SelectParentTypesByTypeID, InsertParentType, hne, Bool.false_eq_true,
    if_false, List.mem_map]
  refine ⟨ParentTypeRow.mk t p, ?_, rfl⟩
  simp [List.mem_filter, List.mem_append, h]

/-- Witness for claim C3: a freshly inserted link with a dangling parent
id 99 is returned for child id 7. -/
theorem InsertParentType_soft_link_witness :
    (7 : Int) ∈ [(7 : Int)] ∧
      parentTypeRowRecord (ParentTypeRow.mk 7 99) ∈
        (SelectParentTypesByTypeID (InsertParentType emptyStore 7 99) [7]).2.1.records :=
  ⟨by decide, InsertParentType_soft_link emptyStore 7 99 [7] (by decide)⟩

/-- Claim C5: SelectParentTypesByTypeID on the empty id list returns
success with a RecordSet holding zero records, and issues zero Execute
calls to the underlying MetadataSource driver. -/
theorem SelectParentTypesByTypeID_empty_short_circuit (s : Store) :
    SelectParentTypesByTypeID s [] = (Status.ok, RecordSet.mk [] [], 0) := rfl

/-- Claim C9: under the precondition that the executor was constructed
with a query config whose schema_version is strictly positive, the
CHECK in GetLibraryVersion never fires and the function returns exactly
the configured schema_version. -/
theorem GetLibraryVersion_returns_config_version
    (query_config : MetadataSourceQueryConfig)
    (h : 0 < query_config.schema_version) :
    GetLibraryVersion query_config = some query_config.schema_version := by
  simp [GetLibraryVersion, h]

/-- Witness for claim C9 at the concrete config with schema_version 10. -/
theorem GetLibraryVersion_returns_config_version_witness :
    0 < (MetadataSourceQueryConfig.mk 10).schema_version ∧
      GetLibraryVersion (MetadataSourceQueryConfig.mk 10) =
        some (MetadataSourceQueryConfig.mk 10).schema_version :=
  ⟨by decide,
   GetLibraryVersion_returns_config_version (MetadataSourceQueryConfig.mk 10) (by decide)⟩

/-- Claim C2: deleting a present context id removes its Context row and
all its ContextProperty rows, while every Attribution and Association
row referencing it is left unchanged: afterwards the context and
property selects for that id return zero rows while the attribution and
association selects return exactly what they returned before. -/
theorem DeleteContextsById_cascade_scope (s : Store) (c : Int)
    (_h : ∃ ctx ∈ s.contexts, ctx.id = c) :
    (DeleteContextsById s [c]).1 = Status.ok ∧
      (SelectContextsByID (DeleteContextsById s [c]).2 [c]).records = [] ∧
      (SelectContextPropertyByContextID (DeleteContextsById s [c]).2 [c]).records = [] ∧
      SelectAttributionByContextID (DeleteContextsById s [c]).2 c =
        SelectAttributionByContextID s c ∧
      SelectAssociationByContextIDs (DeleteContextsById s [c]).2 [c] =
        SelectAssociationByContextIDs s [c] := by
  refine ⟨rfl, ?_, ?_, rfl, rfl⟩
  · simp [SelectContextsByID, DeleteContextsById, List.filter_filter]
  · simp [SelectContextPropertyByContextID, DeleteContextsById, List.filter_filter]

/-- Witness for claim C2 on a concrete store holding context 1, one of
its properties, and an attribution and association referencing it. -/
theorem DeleteContextsById_cascade_scope_witness :
    (∃ ctx ∈ witnessStore.contexts, ctx.id = 1) ∧
      ((DeleteContextsById witnessStore [1]).1 = Status.ok ∧
        (SelectContextsByID (DeleteContextsById witnessStore [1]).2 [1]).records = [] ∧
        (SelectContextPropertyByContextID
            (DeleteContextsById witnessStore [1]).2 [1]).records = [] ∧
        SelectAttributionByContextID (DeleteContextsById witnessStore [1]).2 1 =
          SelectAttributionByContextID witnessStore 1 ∧
        SelectAssociationByContextIDs (DeleteContextsById witnessStore [1]).2 [1] =
          SelectAssociationByContextIDs witnessStore [1]) :=
  ⟨by decide, DeleteContextsById_cascade_scope witnessStore 1 (by decide)⟩

/-- Claim C4: deleting an id that names no current context returns
success and leaves the store completely unchanged (given the data-model
invariant that every property row is owned by an existing context), and
deleting the empty id list is likewise a successful no-op; deleting
non-existent ids is never an error. -/
theorem DeleteContextsById_missing_id_noop (s : Store) (x : Int)
    (hctx : ∀ ctx ∈ s.contexts, ctx.id ≠ x)
    (hwf : ∀ p ∈ s.contextProperties, ∃ ctx ∈ s.contexts, ctx.id = p.context_id) :
    DeleteContextsById s [x] = (Status.ok, s) ∧
      DeleteContextsById s [] = (Status.ok, s) := by
  refine ⟨?_, rfl⟩
  have h1 : s.contexts.filter (fun c => !decide (c.id = x)) = s.contexts := by
    rw [List.filter_eq_self]
    intro a ha
    simpa using hctx a ha
  have h2 : s.contextProperties.filter
      (fun p => !decide (p.context_id = x)) = s.contextProperties := by
    rw [List.filter_eq_self]
    intro p hp
    rcases hwf p hp with ⟨ctx, hc, he⟩
    simpa using fun e => hctx ctx hc (he.trans e)
  simp [DeleteContextsById, h1, h2]

/-- Witness for claim C4: deleting the absent id 42 and the empty list on
the concrete store leaves it unchanged with success. -/
theorem DeleteContextsById_missing_id_noop_witness :
    (∀ ctx ∈ witnessStore.contexts, ctx.id ≠ 42) ∧
      (∀ p ∈ witnessStore.contextProperties,
        ∃ ctx ∈ witnessStore.contexts, ctx.id = p.context_id) ∧
      DeleteContextsById witnessStore [42] = (Status.ok, witnessStore) ∧
      DeleteContextsById witnessStore [] = (Status.ok, witnessStore) :=
  ⟨by decide, by decide,
   (DeleteContextsById_missing_id_noop witnessStore 42 (by decide) (by decide)).1,
   (DeleteContextsById_missing_id_noop witnessStore 42 (by decide) (by decide)).2⟩

/-- Helper: selecting a freshly inserted Type row by its id and kind
returns exactly that row, when no pre-existing row uses the fresh id. -/
theorem SelectTypesByID_fresh_insert (s : Store) (row : TypeRow) (K : TypeKind)
    (hid : row.id = s.nextId) (hk : row.type_kind = K)
    (h : ∀ t ∈ s.types, t.id ≠ s.nextId) :
    SelectTypesByID { s with types := s.types ++ [row], nextId := s.nextId + 1 }
        [s.nextId] K =
      RecordSet.mk typeColumnNames [typeRowRecord row] := by
  simp [SelectTypesByID, List.filter_append, hid, hk]
  intro a ha e
  exact absurd e (h a ha)

/-- Claim C6: a type inserted with absent (NULL) version and description
is read back by SelectTypesByID as a RecordSet whose columns are exactly
id, name, version, description, in which the version and description
cells are the exact sentinel string MLMD NULL; this holds for artifact,
execution and context types alike (the expected record sets in the test
fix the same four columns for all three kinds). -/
theorem SelectTypesByID_null_sentinel (s : Store) (nm : String)
    (it ot : Option String)
    (h : ∀ t ∈ s.types, t.id ≠ s.nextId) :
    SelectTypesByID (InsertArtifactType s nm none none).2
        [(InsertArtifactType s nm none none).1] TypeKind.ARTIFACT_TYPE =
      RecordSet.mk ["id", "name", "version", "description"]
        [Record.mk [toString s.nextId, nm, "__MLMD_NULL__", "__MLMD_NULL__"]] ∧
    SelectTypesByID (InsertExecutionType s nm none none it ot).2
        [(InsertExecutionType s nm none none it ot).1] TypeKind.EXECUTION_TYPE =
      RecordSet.mk ["id", "name", "version", "description"]
        [Record.mk [toString s.nextId, nm, "__MLMD_NULL__", "__MLMD_NULL__"]] ∧
    SelectTypesByID (InsertContextType s nm none none).2
        [(InsertContextType s nm none none).1] TypeKind.CONTEXT_TYPE =
      RecordSet.mk ["id", "name", "version", "description"]
        [Record.mk [toString s.nextId, nm, "__MLMD_NULL__", "__MLMD_NULL__"]] :=
  ⟨SelectTypesByID_fresh_insert s _ _ rfl rfl h,
   SelectTypesByID_fresh_insert s _ _ rfl rfl h,
   SelectTypesByID_fresh_insert s _ _ rfl rfl h⟩

/-- Witness for claim C6 on the empty store, inserting types named as in
the test scenario. -/
theorem SelectTypesByID_null_sentinel_witness :
    (∀ t ∈ emptyStore.types, t.id ≠ emptyStore.nextId) ∧
      SelectTypesByID (InsertArtifactType emptyStore ("artifact_type_1") none none).2
          [(InsertArtifactType emptyStore ("artifact_type_1") none none).1]
          TypeKind.ARTIFACT_TYPE =
        RecordSet.mk ["id", "name", "version", "description"]
          [Record.mk ["1", "artifact_type_1", "__MLMD_NULL__", "__MLMD_NULL__"]] :=
  ⟨by decide,
   ((SelectTypesByID_null_sentinel emptyStore ("artifact_type_1") none none
      (by decide)).1).trans (by decide)⟩

/-- Claim C7: if InitMetadataSource succeeds on an empty database then
the stored schema version equals the library version configured in the
query config, and running InitMetadataSource again on the resulting
database is a no-op returning success. -/
theorem InitMetadataSource_empty_then_idempotent
    (query_config : MetadataSourceQueryConfig) (enable_migration : Bool)
    (db : Database)
    (h1 : db.schemaVersion = none) (h2 : db.legacy = LegacyState.absent) :
    ∃ db2,
      InitMetadataSource query_config enable_migration db = (Status.ok, db2) ∧
        GetSchemaVersion db2 = some query_config.schema_version ∧
        InitMetadataSource query_config enable_migration db2 = (Status.ok, db2) := by
  refine ⟨Database.mk (some query_config.schema_version) db.legacy true, ?_, rfl, ?_⟩
  · simp [InitMetadataSource, h1, h2]
  · simp [InitMetadataSource]

/-- Witness for claim C7 on the concrete empty database and a config with
library version 10. -/
theorem InitMetadataSource_empty_then_idempotent_witness :
    (Database.mk none LegacyState.absent false).schemaVersion = none ∧
      ∃ db2,
        InitMetadataSource (MetadataSourceQueryConfig.mk 10) true
            (Database.mk none LegacyState.absent false) = (Status.ok, db2) ∧
          GetSchemaVersion db2 = some (MetadataSourceQueryConfig.mk 10).schema_version ∧
          InitMetadataSource (MetadataSourceQueryConfig.mk 10) true db2 = (Status.ok, db2) :=
  ⟨rfl,
   InitMetadataSource_empty_then_idempotent (MetadataSourceQueryConfig.mk 10) true
     (Database.mk none LegacyState.absent false) rfl rfl⟩

/-- Claim C8: on a database whose stored schema version is strictly
greater than the library version, the init and upgrade path returns
FailedPrecondition and leaves the database unmodified; no downgrade is
attempted on this path. -/
theorem UpgradeMetadataSourceIfOutOfDate_newer_db_fails
    (query_config : MetadataSourceQueryConfig) (enable_migration : Bool)
    (db : Database) (db_v : Int)
    (h : db.schemaVersion = some db_v)
    (hgt : query_config.schema_version < db_v) :
    InitMetadataSource query_config enable_migration db =
        (Status.failedPrecondition, db) ∧
      UpgradeMetadataSourceIfOutOfDate query_config enable_migration db db_v =
        (Status.failedPrecondition, db) := by
  have hne : ¬ db_v = query_config.schema_version := by omega
  have hup : UpgradeMetadataSourceIfOutOfDate query_config enable_migration db db_v =
      (Status.failedPrecondition, db) := by
    simp [UpgradeMetadataSourceIfOutOfDate, hgt]
  exact ⟨by simp [InitMetadataSource, h, hne, hup], hup⟩

/-- Witness for claim C8: a database at version 12 against a library at
version 10. -/
theorem UpgradeMetadataSourceIfOutOfDate_newer_db_fails_witness :
    (Database.mk (some 12) LegacyState.absent true).schemaVersion = some 12 ∧
      (MetadataSourceQueryConfig.mk 10).schema_version < 12 ∧
      InitMetadataSource (MetadataSourceQueryConfig.mk 10) true
          (Database.mk (some 12) LegacyState.absent true) =
        (Status.failedPrecondition, Database.mk (some 12) LegacyState.absent true) ∧
      UpgradeMetadataSourceIfOutOfDate (MetadataSourceQueryConfig.mk 10) true
          (Database.mk (some 12) LegacyState.absent true) 12 =
        (Status.failedPrecondition, Database.mk (some 12) LegacyState.absent true) :=
  ⟨rfl, by decide,
   (UpgradeMetadataSourceIfOutOfDate_newer_db_fails (MetadataSourceQueryConfig.mk 10) true
     (Database.mk (some 12) LegacyState.absent true) 12 rfl (by decide)).1,
   (UpgradeMetadataSourceIfOutOfDate_newer_db_fails (MetadataSourceQueryConfig.mk 10) true
     (Database.mk (some 12) LegacyState.absent true) 12 rfl (by decide)).2⟩

/-- Helper: the scan result is -1 exactly when no column named id is in
the remaining list. -/
theorem getIdColumnIndexFrom_eq_neg_one (k : Nat) (cols : List String) :
    GetIdColumnIndexFrom k cols = -1 ↔ idColumnName ∉ cols := by
  induction cols generalizing k with
  | nil => simp [GetIdColumnIndexFrom]
  | cons c rest ih =>
    by_cases hc : c = idColumnName
    · simp only [GetIdColumnIndexFrom, if_pos hc, List.mem_cons]
      constructor
      · intro e
        exact absurd e (by omega)
      · intro hmem
        exact absurd (Or.inl hc.symm) hmem
    · simp only [GetIdColumnIndexFrom, if_neg hc, List.mem_cons]
      rw [ih (k + 1)]
      constructor
      · intro hmem e
        rcases e with e | e
        · exact hc e.symm
        · exact hmem e
      · intro hmem e
        exact hmem (Or.inr e)

/-- Helper: the scan result is never strictly between -1 and the start
position. -/
theorem getIdColumnIndexFrom_lower (k : Nat) (cols : List String) :
    GetIdColumnIndexFrom k cols = -1 ∨ (k : Int) ≤ GetIdColumnIndexFrom k cols := by
  induction cols generalizing k with
  | nil => exact Or.inl rfl
  | cons c rest ih =>
    by_cases hc : c = idColumnName
    · right
      rw [GetIdColumnIndexFrom, if_pos hc]
    · rw [GetIdColumnIndexFrom, if_neg hc]
      rcases ih (k + 1) with h | h
      · exact Or.inl h
      · right
        omega

/-- Helper: the scan starting at position k returns k + i exactly when
position i holds the first occurrence of the id column in the remaining
list. -/
theorem getIdColumnIndexFrom_eq_add (k i : Nat) (cols : List String) :
    GetIdColumnIndexFrom k cols = ((k + i : Nat) : Int) ↔
      (idColumnName ∉ cols.take i ∧ cols.get? i = some idColumnName) := by
  induction cols generalizing k i with
  | nil =>
    simp only [GetIdColumnIndexFrom, List.take_nil, List.not_mem_nil, not_false_iff,
      List.get?_nil, true_and]
    constructor
    · intro e
      exact absurd e (by omega)
    · intro e
      cases e
  | cons c rest ih =>
    cases i with
    | zero =>
      by_cases hc : c = idColumnName
      · simp [GetIdColumnIndexFrom, if_pos hc, hc]
      · simp only [GetIdColumnIndexFrom, if_neg hc, Nat.add_zero, List.take_zero,
          List.not_mem_nil, not_false_iff, true_and, List.get?_cons_zero]
        constructor
        · intro e
          rcases getIdColumnIndexFrom_lower (k + 1) rest with h | h
          · rw [h] at e
            exact absurd e (by omega)
          · rw [e] at h
            exact absurd h (by omega)
        · intro e
          injection e with e
          exact absurd e hc
    | succ j =>
      by_cases hc : c = idColumnName
      · simp only [GetIdColumnIndexFrom, if_pos hc, List.take_succ_cons,
          List.mem_cons, List.get?_cons_succ]
        constructor
        · intro e
          exact absurd e (by omega)
        · intro e
          exact absurd (Or.inl hc.symm) e.1
      · simp only [GetIdColumnIndexFrom, if_neg hc, List.take_succ_cons,
          List.mem_cons, List.get?_cons_succ]
        have hcast : ((k + (j + 1) : Nat) : Int) = (((k + 1) + j : Nat) : Int) := by
          omega
        rw [hcast, ih (k + 1) j]
        constructor
        · intro hp
          refine ⟨fun e => ?_, hp.2⟩
          rcases e with e | e
          · exact hc e.symm
          · exact hp.1 e
        · intro hp
          exact ⟨fun e => hp.1 (Or.inr e), hp.2⟩

/-- Claim C10: GetIdColumnIndex returns the position of the first column
named id (it returns i exactly when column i is named id and no earlier
column is), returns -1 exactly when no column is named id, and depends
only on the column names, never on the records. -/
theorem GetIdColumnIndex_first_id_column (cols : List String)
    (rows rows2 : List Record) :
    (GetIdColumnIndex (RecordSet.mk cols rows) = -1 ↔ idColumnName ∉ cols) ∧
      (∀ i : Nat,
        GetIdColumnIndex (RecordSet.mk cols rows) = (i : Int) ↔
          (idColumnName ∉ cols.take i ∧ cols.get? i = some idColumnName)) ∧
      GetIdColumnIndex (RecordSet.mk cols rows) =
        GetIdColumnIndex (RecordSet.mk cols rows2) := by
  refine ⟨getIdColumnIndexFrom_eq_neg_one 0 cols, ?_, rfl⟩
  intro i
  have h := getIdColumnIndexFrom_eq_add 0 i cols
  rw [Nat.zero_add] at h
  exact h

end MlMetadata
